import Mathlib

/-!
Verification of the checkpoint-export and training-support utilities in
deepspeed-telechat/utils/utils.py, as a shallow embedding in Lean 4.

Conventions of the embedding:
* Python strings are Lean String; the substring test (Python "x in s") is strContains.
* A torch dtype is identified by its string form str(dtype); torch.bool is the
  distinguished value whose string form is "torch.bool".
* A tensor parameter is abstracted to its metadata (element count, dtype,
  requires_grad, DeepSpeed partition attributes); serialization writes names, so this
  is all the export logic inspects.
* Stateful effects (directory creation, file writes, shell copies, collective
  gathers) are recorded as explicit traces; a Python exception that propagates out of
  a function is modelled as an error value together with the trace of effects that
  had already been performed before the raise.
* Machine integers do not overflow in the modelled code paths (Python ints are
  unbounded), so counts are Nat and byte sizes are rationals (Python mixes int and
  float: 1 / 8 is a float, bit_size // 8 is an int).
-/

namespace Telechat

/-- Prefix test on character lists: chars_has_pre n h is true iff n is an initial
segment of h.  Used to model the Python substring operator. -/
def chars_has_pre : List Char → List Char → Bool
  | [], _ => true
  | _ :: _, [] => false
  | n :: ns, h :: hs => (n == h) && chars_has_pre ns hs

/-- Substring occurrence on character lists (needle first). -/
def chars_contains (needle : List Char) : List Char → Bool
  | [] => chars_has_pre needle []
  | h :: rest => chars_has_pre needle (h :: rest) || chars_contains needle rest

/-- Python "needle in hay" for strings: substring containment. -/
def strContains (hay needle : String) : Bool :=
  chars_contains needle.data hay.data

/-- Python "lora" in name, the adapter-weight name test used by the export code. -/
def hasLora (name : String) : Bool :=
  strContains name "lora"

/-- os.path.join for the cases exercised by utils.py (second component is a plain
relative name or empty). -/
def os_path_join (a b : String) : String :=
  if a = "" then b
  else if b = "" then a ++ "/"
  else if a.data.getLast? = some '/' then a ++ b
  else a ++ "/" ++ b

/-- A torch dtype, identified by its string form str(dtype). -/
structure Dtype where
  name : String
deriving DecidableEq, Repr

/-- torch.bool. -/
def torch_bool : Dtype := ⟨"torch.bool"⟩

/-- The maximal run of decimal digits at the end of a string. -/
def trailingDigits (s : String) : List Char :=
  ((s.data.reverse).takeWhile Char.isDigit).reverse

/-- Decimal value of a digit list (most significant first). -/
def digitsVal (l : List Char) : Nat :=
  l.foldl (fun a c => a * 10 + (c.toNat - 48)) 0

/-- Embedding of re.search("[^\x5Cd](\x5Cd+)$", s) from get_dtype_size: the regex
matches iff s ends in at least one digit and some earlier character is not a digit
(equivalently, the maximal digit suffix is nonempty and shorter than s), and the
captured group is that maximal digit suffix. -/
def bit_search (s : String) : Option Nat :=
  if (trailingDigits s).length = 0 ∨ (trailingDigits s).length = s.data.length then none
  else some (digitsVal (trailingDigits s))

/-- get_dtype_size from utils.py.  Returns 1/8 (a Python float) for torch.bool;
otherwise extracts the trailing bit-width N from str(dtype) and returns
bit_size // 8 (Python integer floor division); raises ValueError when the regex
does not match. -/
def get_dtype_size (dtype : Dtype) : Except String ℚ :=
  if dtype = torch_bool then .ok (1 / 8)
  else
    match bit_search dtype.name with
    | none => .error "dtype is not a valid dtype"
    | some bit_size => .ok ((bit_size / 8 : ℕ) : ℚ)

/-- Boolean success test for the Except values of this development. -/
def exceptOk : Except String ℚ → Bool
  | .ok _ => true
  | .error _ => false

/-- A named model parameter as the export code sees it: element count, dtype,
trainability, and the DeepSpeed ZeRO-3 partition attributes (ds_id when the
parameter participates in sharding, and whether its ds_status is NOT_AVAILABLE). -/
structure Param where
  numel : Nat
  dtype : Dtype
  requires_grad : Bool
  ds_id : Option Nat
  ds_status_not_available : Bool
deriving DecidableEq, Repr

/-- A model handle, after the model.module unwrap: its named_parameters() sequence
and its state_dict() sequence (the latter may also contain buffers, and in
particular may contain extra names). -/
structure Model where
  named_parameters : List (String × Param)
  state_dict : List (String × Param)
deriving DecidableEq, Repr

/-- The args bundle fields read by the export code. -/
structure Args where
  output_dir : String
  model_name_or_path : String
  global_rank : ℤ
  zero_stage : ℕ
deriving DecidableEq, Repr

/-- The weight index that is serialized to pytorch_model.bin.index.json:
weight_map entries in insertion order, and metadata.total_size. -/
structure IndexDict where
  weight_map : List (String × String)
  total_size : ℚ
deriving DecidableEq, Repr

/-- One filesystem-visible effect of an export call. -/
inductive FsOp
  | makedirs (path : String)
  | torch_save (path : String) (entries : List (String × Param))
  | config_to_json (path : String)
  | tokenizer_save (dir : String)
  | write_index (path : String) (index : IndexDict)
  | shell_copy (src_pattern : String) (dst_dir : String)
deriving DecidableEq, Repr

/-- Result of an export call: the filesystem trace, the trace of
deepspeed.zero.GatheredParameters invocations (parameter name being processed,
names in the fetch-list argument), and the raised exception if any. -/
structure SaveResult where
  fs : List FsOp
  gathers : List (String × List String)
  err : Option String
deriving DecidableEq, Repr

def WEIGHTS_NAME : String := "pytorch_model_00001-of-00001.bin"

def CONFIG_NAME : String := "config.json"

def INDEX_NAME : String := "pytorch_model.bin.index.json"

/-- The index-building loop shared by save_hf_format and the replicated branch of
save_zero_three_model: over named_parameters, skip names containing "lora",
otherwise record the name in the weight map and add numel * get_dtype_size(dtype)
to the running total; a ValueError from get_dtype_size propagates. -/
def accumulate_index : List (String × Param) → List (String × String) → ℚ →
    Except String (List (String × String) × ℚ)
  | [], wm, total => .ok (wm, total)
  | (n, p) :: rest, wm, total =>
    if hasLora n then accumulate_index rest wm total
    else
      match get_dtype_size p.dtype with
      | .error e => .error e
      | .ok sz => accumulate_index rest (wm ++ [(n, WEIGHTS_NAME)]) (total + p.numel * sz)

/-- save_hf_format from utils.py, as an effect trace.  The save_dict is the
state_dict with every "lora" key deleted; the index loop may raise, in which case
the earlier writes have already happened and the index file and copies are not
produced. -/
def save_hf_format (m : Model) (args : Args) (sub_folder : String) : SaveResult :=
  let output_dir := os_path_join args.output_dir sub_folder
  let output_model_file := os_path_join output_dir WEIGHTS_NAME
  let output_config_file := os_path_join output_dir CONFIG_NAME
  let save_dict := m.state_dict.filter (fun kv => ! hasLora kv.1)
  let fs0 : List FsOp :=
    [.makedirs output_dir,
     .torch_save output_model_file save_dict,
     .config_to_json output_config_file,
     .tokenizer_save output_dir]
  match accumulate_index m.named_parameters [] 0 with
  | .error e => ⟨fs0, [], some e⟩
  | .ok (wm, total) =>
    ⟨fs0 ++
      [.write_index (os_path_join output_dir INDEX_NAME) ⟨wm, total⟩,
       .shell_copy (args.model_name_or_path ++ "/*telechat*") output_dir,
       .shell_copy (args.model_name_or_path ++ "/generation*") output_dir],
     [], none⟩

/-- _z3_params_to_fetch from utils.py: the sublist of parameters that have a ds_id
attribute and whose ds_status is NOT_AVAILABLE (names kept for identification). -/
def _z3_params_to_fetch (param_list : List (String × Param)) : List (String × Param) :=
  param_list.filter (fun kv => kv.2.ds_id.isSome && kv.2.ds_status_not_available)

/-- Accumulator of the ZeRO-3 gather loop: rank-0's output_state_dict, the
weight-map entries, the running total_size, and the gather-invocation trace. -/
structure Z3Acc where
  osd : List (String × Param)
  wm : List (String × String)
  total : ℚ
  gathers : List (String × List String)
deriving DecidableEq, Repr

/-- The ZeRO-3 loop of save_zero_three_model.  For each named parameter: when it
has a ds_id, deepspeed.zero.GatheredParameters(_z3_params_to_fetch([v])) is entered
(recorded in the gather trace) on every rank; afterwards, only on global_rank 0 and
for non-"lora" names the parameter is accumulated, which evaluates
get_dtype_size and may raise. -/
def z3_loop (global_rank : ℤ) : List (String × Param) → Z3Acc → Z3Acc × Option String
  | [], acc => (acc, none)
  | (k, v) :: rest, acc =>
    let acc1 : Z3Acc :=
      if v.ds_id.isSome then
        { acc with gathers := acc.gathers ++ [(k, (_z3_params_to_fetch [(k, v)]).map Prod.fst)] }
      else acc
    if global_rank = 0 ∧ hasLora k = false then
      match get_dtype_size v.dtype with
      | .error e => (acc1, some e)
      | .ok sz =>
        z3_loop global_rank rest
          { acc1 with
            osd := acc1.osd ++ [(k, v)],
            wm := acc1.wm ++ [(k, WEIGHTS_NAME)],
            total := acc1.total + v.numel * sz }
    else z3_loop global_rank rest acc1

/-- save_zero_three_model from utils.py, as an effect trace.  Both output
directories are created on every rank before any rank gating.  In the replicated
branch (zero_stage other than 3) only rank 0 saves the full state_dict (with no
"lora" filtering) and builds the index; in the ZeRO-3 branch every rank runs the
gather loop and rank 0 accumulates and saves.  The final rank-0 block writes the
index file, the tokenizer assets, and performs the two best-effort shell copies. -/
def save_zero_three_model (m : Model) (args : Args) (sub_folder : String) : SaveResult :=
  let output_dir := os_path_join args.output_dir sub_folder
  let output_model_file := os_path_join output_dir WEIGHTS_NAME
  let pre : List FsOp := [.makedirs args.output_dir, .makedirs output_dir]
  let finalOps : IndexDict → List FsOp := fun idx =>
    [.write_index (os_path_join output_dir INDEX_NAME) idx,
     .tokenizer_save output_dir,
     .shell_copy (args.model_name_or_path ++ "/*telechat*") output_dir,
     .shell_copy (args.model_name_or_path ++ "/generation*") output_dir]
  if args.zero_stage ≠ 3 then
    if args.global_rank = 0 then
      match accumulate_index m.named_parameters [] 0 with
      | .error e => ⟨pre ++ [.torch_save output_model_file m.state_dict], [], some e⟩
      | .ok (wm, total) =>
        ⟨pre ++ [.torch_save output_model_file m.state_dict] ++ finalOps ⟨wm, total⟩,
         [], none⟩
    else ⟨pre, [], none⟩
  else
    match z3_loop args.global_rank m.named_parameters ⟨[], [], 0, []⟩ with
    | (acc, some e) => ⟨pre, acc.gathers, some e⟩
    | (acc, none) =>
      if args.global_rank = 0 then
        ⟨pre ++ [.torch_save output_model_file acc.osd] ++ finalOps ⟨acc.wm, acc.total⟩,
         acc.gathers, none⟩
      else ⟨pre, acc.gathers, none⟩

/-- The index dict written by a trace, if any (the first write_index operation). -/
def written_index : List FsOp → Option IndexDict
  | [] => none
  | .write_index _ idx :: _ => some idx
  | _ :: fs => written_index fs

/-- Recognizer for config.json writes in a trace. -/
def is_config_write : FsOp → Bool
  | .config_to_json _ => true
  | _ => false

/-! Derived descriptions of what the export loops compute, used to state the
claims.  kept_params, kept_weight_map and kept_total describe the retained
(non-adapter) parameters; gather_trace describes the collective-gather sequence of
the ZeRO-3 loop. -/

/-- The parameters retained by the index loops: names not containing "lora". -/
def kept_params (l : List (String × Param)) : List (String × Param) :=
  l.filter (fun np => ! hasLora np.1)

/-- The weight map produced over a parameter list: every retained name mapped to
the single shard file. -/
def kept_weight_map (l : List (String × Param)) : List (String × String) :=
  (kept_params l).map (fun np => (np.1, WEIGHTS_NAME))

/-- The byte size the code assigns to a dtype (0 is unreachable under a validity
hypothesis). -/
def dtype_size_val (d : Dtype) : ℚ :=
  match get_dtype_size d with
  | .ok q => q
  | .error _ => 0

/-- The total_size accumulated over a parameter list by the index loops. -/
def kept_total (l : List (String × Param)) : ℚ :=
  ((kept_params l).map (fun np => (np.2.numel : ℚ) * dtype_size_val np.2.dtype)).sum

/-- The gather-invocation sequence of the ZeRO-3 loop over a parameter list: one
invocation per parameter that has a ds_id, whose fetch list holds the parameter
itself exactly when its ds_status is NOT_AVAILABLE. -/
def gather_trace (l : List (String × Param)) : List (String × List String) :=
  (l.filter (fun np => np.2.ds_id.isSome)).map
    (fun np => (np.1, if np.2.ds_status_not_available then [np.1] else []))

/-- Byte width as the claim states it: 1/8 for the boolean kind, and N/8 (exact
rational division) for a dtype whose string form ends in the bit-width N. -/
def byte_width_claim (d : Dtype) : Option ℚ :=
  if d = torch_bool then some (1 / 8)
  else (bit_search d.name).map (fun n => (n : ℚ) / 8)

/-- Byte width as amended to match the code: 1/8 for the boolean kind, and the
integer floor of N/8 for a dtype whose string form ends in the bit-width N. -/
def byte_width_amended (d : Dtype) : Option ℚ :=
  if d = torch_bool then some (1 / 8)
  else (bit_search d.name).map (fun n => ((n / 8 : ℕ) : ℚ))

/-- Total size per the claim wording: sum over all parameters of
element count times claimed byte width. -/
def spec_total_claim (m : Model) : ℚ :=
  (m.named_parameters.map
    (fun np => (np.2.numel : ℚ) * ((byte_width_claim np.2.dtype).getD 0))).sum

/-- Total size per the amended claim wording. -/
def spec_total_amended (m : Model) : ℚ :=
  (m.named_parameters.map
    (fun np => (np.2.numel : ℚ) * ((byte_width_amended np.2.dtype).getD 0))).sum

/-! The to_device helper.  A batch is a Python dict of named values; a value is
either a tensor (which has a .to method that retargets its device) or some other
object on which .to raises; the bare except in to_device catches that and keeps the
original value. -/

/-- A compute device. -/
inductive Device
  | cpu
  | cuda (idx : ℕ)
deriving DecidableEq, Repr

/-- A value stored in a batch dict: a tensor carrying data and a device, or a
non-tensor Python object identified by its printed form. -/
inductive Val
  | tensor (data : List ℤ) (dev : Device)
  | pyobj (s : String)
deriving DecidableEq, Repr

/-- v.to(device): succeeds on tensors, producing a copy on the target device;
raises on non-tensor objects. -/
def tensor_to (v : Val) (d : Device) : Except String Val :=
  match v with
  | .tensor data _ => .ok (.tensor data d)
  | .pyobj _ => .error "AttributeError"

/-- Python dict assignment output[k] = v on an association list in insertion
order: overwrite in place if the key exists, else append. -/
def dict_set (d : List (String × Val)) (k : String) (v : Val) : List (String × Val) :=
  if d.any (fun kv => kv.1 == k) then
    d.map (fun kv => if kv.1 == k then (k, v) else kv)
  else d ++ [(k, v)]

/-- One iteration of the to_device loop: try the device move and fall back to the
original value on any exception. -/
def to_device_step (device : Device) (out : List (String × Val)) (kv : String × Val) :
    List (String × Val) :=
  match tensor_to kv.2 device with
  | .ok v2 => dict_set out kv.1 v2
  | .error _ => dict_set out kv.1 kv.2

/-- to_device from utils.py: build a fresh dict whose every entry is the moved
value when the move succeeds and the original value otherwise. -/
def to_device (batch : List (String × Val)) (device : Device) : List (String × Val) :=
  batch.foldl (to_device_step device) []

/-- The value to_device ends up storing for an input value. -/
def moved_val (v : Val) (device : Device) : Val :=
  match tensor_to v device with
  | .ok v2 => v2
  | .error _ => v

/-! Seed control.  The process-wide pseudo-random generator states touched by
set_random_seed: the transformers set_seed hook, the random module, numpy.random,
the torch CPU generator, and the per-device torch CUDA generators. -/

/-- The tuple of PRNG states of the process. -/
structure PRNGState where
  hf_state : ℤ
  py_random_state : ℤ
  np_random_state : ℤ
  torch_cpu_state : ℤ
  torch_cuda_states : List ℤ
deriving DecidableEq, Repr

/-- set_random_seed from utils.py: when a seed is given, every generator is
reseeded from it (each device generator via manual_seed_all); when the seed is
None, nothing runs. -/
def set_random_seed (seed : Option ℤ) (st : PRNGState) : PRNGState :=
  match seed with
  | none => st
  | some sd =>
    { hf_state := sd,
      py_random_state := sd,
      np_random_state := sd,
      torch_cpu_state := sd,
      torch_cuda_states := st.torch_cuda_states.map (fun _ => sd) }

/-! Distributed mean reduction.  Tensors live in a heap addressed by references so
that in-place mutation is observable; a scalar stands for the tensor contents.
torch.distributed.all_reduce(t, SUM) overwrites t in place with the sum of the
tensor across all workers; that across-worker sum is a parameter of the embedding
because the other workers' contributions are external to this process. -/

/-- torch.distributed.all_reduce with ReduceOp.SUM: in-place overwrite of the
tensor cell with the across-worker sum. -/
def all_reduce_sum (heap : List ℚ) (t : ℕ) (world_sum : ℚ) : List ℚ :=
  heap.set t world_sum

/-- tensor / world_size: allocates a fresh tensor holding the quotient and returns
its reference. -/
def tensor_div_new (heap : List ℚ) (t : ℕ) (world_size : ℕ) : List ℚ × ℕ :=
  (heap ++ [heap.getD t 0 / (world_size : ℚ)], heap.length)

/-- get_all_reduce_mean from utils.py: all_reduce the argument in place with SUM,
then rebind the local name to a fresh tensor holding the sum divided by the world
size and return it.  Returns the final heap and the reference of the returned
tensor. -/
def get_all_reduce_mean (heap : List ℚ) (t : ℕ) (world_sum : ℚ) (world_size : ℕ) :
    List ℚ × ℕ :=
  tensor_div_new (all_reduce_sum heap t world_sum) t world_size

/-! Optimizer parameter grouping. -/

/-- One optimizer parameter group: the collected parameters and the weight-decay
coefficient attached to them. -/
structure ParamGroup where
  params : List Param
  weight_decay : ℚ
deriving DecidableEq, Repr

/-- The default no-decay substring list of get_optimizer_grouped_parameters. -/
def no_decay_default : List String := ["bias", "LayerNorm.weight"]

/-- Whether a parameter name contains at least one of the no-decay substrings. -/
def name_no_decay (nd_list : List String) (n : String) : Bool :=
  nd_list.any (fun nd => strContains n nd)

/-- get_optimizer_grouped_parameters from utils.py: two groups in fixed order, the
first holding the trainable parameters whose name contains none of the no-decay
substrings together with the given weight decay, the second holding the trainable
parameters whose name contains at least one of them with weight decay 0.0. -/
def get_optimizer_grouped_parameters (m : Model) (weight_decay : ℚ)
    (no_decay_name_list : List String) : List ParamGroup :=
  [{ params :=
      (m.named_parameters.filter
        (fun np => ! name_no_decay no_decay_name_list np.1 && np.2.requires_grad)).map
        Prod.snd,
     weight_decay := weight_decay },
   { params :=
      (m.named_parameters.filter
        (fun np => name_no_decay no_decay_name_list np.1 && np.2.requires_grad)).map
        Prod.snd,
     weight_decay := 0 }]

/-! Helper lemmas about the embedded operations. -/

theorem kept_params_cons_keep (n : String) (p : Param) (tl : List (String × Param))
    (h : hasLora n = false) :
    kept_params ((n, p) :: tl) = (n, p) :: kept_params tl := by
  simp [kept_params, h]

theorem kept_params_cons_drop (n : String) (p : Param) (tl : List (String × Param))
    (h : hasLora n = true) :
    kept_params ((n, p) :: tl) = kept_params tl := by
  simp [kept_params, h]

theorem kept_weight_map_cons_keep (n : String) (p : Param) (tl : List (String × Param))
    (h : hasLora n = false) :
    kept_weight_map ((n, p) :: tl) = (n, WEIGHTS_NAME) :: kept_weight_map tl := by
  simp [kept_weight_map, kept_params_cons_keep n p tl h]

theorem kept_weight_map_cons_drop (n : String) (p : Param) (tl : List (String × Param))
    (h : hasLora n = true) :
    kept_weight_map ((n, p) :: tl) = kept_weight_map tl := by
  simp [kept_weight_map, kept_params_cons_drop n p tl h]

theorem kept_total_cons_keep (n : String) (p : Param) (tl : List (String × Param))
    (h : hasLora n = false) :
    kept_total ((n, p) :: tl) = (p.numel : ℚ) * dtype_size_val p.dtype + kept_total tl := by
  simp [kept_total, kept_params_cons_keep n p tl h]

theorem kept_total_cons_drop (n : String) (p : Param) (tl : List (String × Param))
    (h : hasLora n = true) :
    kept_total ((n, p) :: tl) = kept_total tl := by
  simp [kept_total, kept_params_cons_drop n p tl h]

theorem fetch_single (k : String) (v : Param) (h : v.ds_id.isSome = true) :
    (_z3_params_to_fetch [(k, v)]).map Prod.fst =
      if v.ds_status_not_available then [k] else [] := by
  by_cases hn : v.ds_status_not_available <;> simp [_z3_params_to_fetch, h, hn]

theorem gather_trace_cons_some (k : String) (v : Param) (tl : List (String × Param))
    (h : v.ds_id.isSome = true) :
    gather_trace ((k, v) :: tl)
      = (k, if v.ds_status_not_available then [k] else []) :: gather_trace tl := by
  simp [gather_trace, h]

theorem gather_trace_cons_none (k : String) (v : Param) (tl : List (String × Param))
    (h : v.ds_id.isSome = false) :
    gather_trace ((k, v) :: tl) = gather_trace tl := by
  simp [gather_trace, h]

theorem accumulate_index_ok (l : List (String × Param)) :
    ∀ wm total,
      (∀ np ∈ l, hasLora np.1 = false → exceptOk (get_dtype_size np.2.dtype) = true) →
      accumulate_index l wm total = .ok (wm ++ kept_weight_map l, total + kept_total l) := by
  induction l with
  | nil =>
    intro wm total _
    simp [accumulate_index, kept_weight_map, kept_params, kept_total]
  | cons hd tl ih =>
    intro wm total hok
    obtain ⟨n, p⟩ := hd
    have htl : ∀ np ∈ tl, hasLora np.1 = false → exceptOk (get_dtype_size np.2.dtype) = true :=
      fun np hnp => hok np (List.mem_cons_of_mem _ hnp)
    by_cases hl : hasLora n = true
    · have h1 : accumulate_index ((n, p) :: tl) wm total = accumulate_index tl wm total := by
        simp [accumulate_index, hl]
      rw [h1, ih _ _ htl, kept_weight_map_cons_drop n p tl hl, kept_total_cons_drop n p tl hl]
    · have hl' : hasLora n = false := by simpa using hl
      have hokp := hok (n, p) (List.mem_cons_self _ _) hl'
      cases he : get_dtype_size p.dtype with
      | error e => rw [he] at hokp; simp [exceptOk] at hokp
      | ok sz =>
        have h1 : accumulate_index ((n, p) :: tl) wm total
            = accumulate_index tl (wm ++ [(n, WEIGHTS_NAME)]) (total + p.numel * sz) := by
          simp [accumulate_index, hl', he]
        have hv : dtype_size_val p.dtype = sz := by simp [dtype_size_val, he]
        rw [h1, ih _ _ htl, kept_weight_map_cons_keep n p tl hl', kept_total_cons_keep n p tl hl']
        rw [hv]
        simp [List.append_assoc, add_assoc]

theorem accumulate_index_lorafree (l : List (String × Param)) :
    ∀ wm total res, accumulate_index l wm total = .ok res →
      (∀ kv ∈ wm, hasLora kv.1 = false) →
      ∀ kv ∈ res.1, hasLora kv.1 = false := by
  induction l with
  | nil =>
    intro wm total res hres hwm
    simp [accumulate_index] at hres
    rw [← hres]
    exact hwm
  | cons hd tl ih =>
    intro wm total res hres hwm
    obtain ⟨n, p⟩ := hd
    by_cases hl : hasLora n = true
    · have h1 : accumulate_index ((n, p) :: tl) wm total = accumulate_index tl wm total := by
        simp [accumulate_index, hl]
      rw [h1] at hres
      exact ih _ _ _ hres hwm
    · have hl' : hasLora n = false := by simpa using hl
      cases he : get_dtype_size p.dtype with
      | error e =>
        have h1 : accumulate_index ((n, p) :: tl) wm total = .error e := by
          simp [accumulate_index, hl', he]
        rw [h1] at hres
        cases hres
      | ok sz =>
        have h1 : accumulate_index ((n, p) :: tl) wm total
            = accumulate_index tl (wm ++ [(n, WEIGHTS_NAME)]) (total + p.numel * sz) := by
          simp [accumulate_index, hl', he]
        rw [h1] at hres
        refine ih _ _ _ hres ?_
        intro kv hkv
        rcases List.mem_append.mp hkv with h | h
        · exact hwm kv h
        · simp at h
          subst h
          exact hl'

theorem z3_loop_rank_ne (r : ℤ) (hr : ¬ r = 0) (l : List (String × Param)) :
    ∀ acc, z3_loop r l acc = ({ acc with gathers := acc.gathers ++ gather_trace l }, none) := by
  induction l with
  | nil => intro acc; simp [z3_loop, gather_trace]
  | cons hd tl ih =>
    intro acc
    obtain ⟨k, v⟩ := hd
    by_cases hds : v.ds_id.isSome = true
    · have h1 : z3_loop r ((k, v) :: tl) acc
          = z3_loop r tl { acc with gathers :=
              acc.gathers ++ [(k, (_z3_params_to_fetch [(k, v)]).map Prod.fst)] } := by
        simp [z3_loop, hds, hr]
      rw [h1, ih, gather_trace_cons_some k v tl hds, fetch_single k v hds]
      simp
    · have hds' : v.ds_id.isSome = false := by simpa using hds
      have h1 : z3_loop r ((k, v) :: tl) acc = z3_loop r tl acc := by
        simp [z3_loop, hds', hr]
      rw [h1, ih, gather_trace_cons_none k v tl hds']

theorem z3_loop_rank0_ok (l : List (String × Param)) :
    ∀ acc,
      (∀ np ∈ l, hasLora np.1 = false → exceptOk (get_dtype_size np.2.dtype) = true) →
      z3_loop 0 l acc =
        ({ osd := acc.osd ++ kept_params l,
           wm := acc.wm ++ kept_weight_map l,
           total := acc.total + kept_total l,
           gathers := acc.gathers ++ gather_trace l }, none) := by
  induction l with
  | nil =>
    intro acc _
    simp [z3_loop, gather_trace, kept_params, kept_weight_map, kept_total]
  | cons hd tl ih =>
    intro acc hok
    obtain ⟨k, v⟩ := hd
    obtain ⟨osd, wm, total, gs⟩ := acc
    have htl : ∀ np ∈ tl, hasLora np.1 = false → exceptOk (get_dtype_size np.2.dtype) = true :=
      fun np hnp => hok np (List.mem_cons_of_mem _ hnp)
    by_cases hl : hasLora k = true
    · by_cases hds : v.ds_id.isSome = true
      · have h1 : z3_loop 0 ((k, v) :: tl) ⟨osd, wm, total, gs⟩
            = z3_loop 0 tl ⟨osd, wm, total,
                gs ++ [(k, (_z3_params_to_fetch [(k, v)]).map Prod.fst)]⟩ := by
          simp [z3_loop, hds, hl]
        rw [h1, ih _ htl, gather_trace_cons_some k v tl hds, fetch_single k v hds,
          kept_params_cons_drop k v tl hl, kept_weight_map_cons_drop k v tl hl,
          kept_total_cons_drop k v tl hl]
        simp
      · have hds' : v.ds_id.isSome = false := by simpa using hds
        have h1 : z3_loop 0 ((k, v) :: tl) ⟨osd, wm, total, gs⟩
            = z3_loop 0 tl ⟨osd, wm, total, gs⟩ := by
          simp [z3_loop, hds', hl]
        rw [h1, ih _ htl, gather_trace_cons_none k v tl hds',
          kept_params_cons_drop k v tl hl, kept_weight_map_cons_drop k v tl hl,
          kept_total_cons_drop k v tl hl]
    · have hl' : hasLora k = false := by simpa using hl
      have hokp := hok (k, v) (List.mem_cons_self _ _) hl'
      cases he : get_dtype_size v.dtype with
      | error e => rw [he] at hokp; simp [exceptOk] at hokp
      | ok sz =>
        have hv : dtype_size_val v.dtype = sz := by simp [dtype_size_val, he]
        by_cases hds : v.ds_id.isSome = true
        · have h1 : z3_loop 0 ((k, v) :: tl) ⟨osd, wm, total, gs⟩
              = z3_loop 0 tl ⟨osd ++ [(k, v)], wm ++ [(k, WEIGHTS_NAME)],
                  total + v.numel * sz,
                  gs ++ [(k, (_z3_params_to_fetch [(k, v)]).map Prod.fst)]⟩ := by
            simp [z3_loop, hds, hl', he]
          rw [h1, ih _ htl, gather_trace_cons_some k v tl hds, fetch_single k v hds,
            kept_params_cons_keep k v tl hl', kept_weight_map_cons_keep k v tl hl',
            kept_total_cons_keep k v tl hl', hv]
          simp [List.append_assoc, add_assoc]
        · have hds' : v.ds_id.isSome = false := by simpa using hds
          have h1 : z3_loop 0 ((k, v) :: tl) ⟨osd, wm, total, gs⟩
              = z3_loop 0 tl ⟨osd ++ [(k, v)], wm ++ [(k, WEIGHTS_NAME)],
                  total + v.numel * sz, gs⟩ := by
            simp [z3_loop, hds', hl', he]
          rw [h1, ih _ htl, gather_trace_cons_none k v tl hds',
            kept_params_cons_keep k v tl hl', kept_weight_map_cons_keep k v tl hl',
            kept_total_cons_keep k v tl hl', hv]
          simp [List.append_assoc, add_assoc]

theorem z3_loop_lorafree (r : ℤ) (l : List (String × Param)) :
    ∀ acc,
      (∀ kv ∈ acc.osd, hasLora kv.1 = false) →
      (∀ kv ∈ acc.wm, hasLora kv.1 = false) →
      (∀ kv ∈ (z3_loop r l acc).1.osd, hasLora kv.1 = false) ∧
      (∀ kv ∈ (z3_loop r l acc).1.wm, hasLora kv.1 = false) := by
  induction l with
  | nil =>
    intro acc h1 h2
    exact ⟨h1, h2⟩
  | cons hd tl ih =>
    intro acc h1 h2
    obtain ⟨k, v⟩ := hd
    obtain ⟨osd, wm, total, gs⟩ := acc
    set gs1 := if v.ds_id.isSome then
        gs ++ [(k, (_z3_params_to_fetch [(k, v)]).map Prod.fst)] else gs with hgs1
    by_cases hcond : r = 0 ∧ hasLora k = false
    · cases he : get_dtype_size v.dtype with
      | error e =>
        have h3 : z3_loop r ((k, v) :: tl) ⟨osd, wm, total, gs⟩
            = (⟨osd, wm, total, gs1⟩, some e) := by
          by_cases hds : v.ds_id.isSome = true <;>
            simp [z3_loop, hds, hcond.1, hcond.2, he, hgs1]
        rw [h3]
        exact ⟨h1, h2⟩
      | ok sz =>
        have h3 : z3_loop r ((k, v) :: tl) ⟨osd, wm, total, gs⟩
            = z3_loop r tl ⟨osd ++ [(k, v)], wm ++ [(k, WEIGHTS_NAME)],
                total + v.numel * sz, gs1⟩ := by
          by_cases hds : v.ds_id.isSome = true <;>
            simp [z3_loop, hds, hcond.1, hcond.2, he, hgs1]
        rw [h3]
        refine ih _ ?_ ?_
        · intro kv hkv
          rcases List.mem_append.mp hkv with h | h
          · exact h1 kv h
          · simp at h
            subst h
            exact hcond.2
        · intro kv hkv
          rcases List.mem_append.mp hkv with h | h
          · exact h2 kv h
          · simp at h
            subst h
            exact hcond.2
    · have h3 : z3_loop r ((k, v) :: tl) ⟨osd, wm, total, gs⟩
          = z3_loop r tl ⟨osd, wm, total, gs1⟩ := by
        by_cases hds : v.ds_id.isSome = true <;>
          simp [z3_loop, hds, hcond, hgs1]
      rw [h3]
      exact ih _ h1 h2

theorem save_hf_format_ok (m : Model) (args : Args) (sub_folder : String)
    (hok : ∀ np ∈ m.named_parameters,
      hasLora np.1 = false → exceptOk (get_dtype_size np.2.dtype) = true) :
    save_hf_format m args sub_folder =
      ⟨[.makedirs (os_path_join args.output_dir sub_folder),
        .torch_save (os_path_join (os_path_join args.output_dir sub_folder) WEIGHTS_NAME)
          (m.state_dict.filter (fun kv => ! hasLora kv.1)),
        .config_to_json (os_path_join (os_path_join args.output_dir sub_folder) CONFIG_NAME),
        .tokenizer_save (os_path_join args.output_dir sub_folder),
        .write_index (os_path_join (os_path_join args.output_dir sub_folder) INDEX_NAME)
          ⟨kept_weight_map m.named_parameters, kept_total m.named_parameters⟩,
        .shell_copy (args.model_name_or_path ++ "/*telechat*")
          (os_path_join args.output_dir sub_folder),
        .shell_copy (args.model_name_or_path ++ "/generation*")
          (os_path_join args.output_dir sub_folder)],
       [], none⟩ := by
  unfold save_hf_format
  rw [accumulate_index_ok _ _ _ hok]
  simp

theorem save_z3_replicated_nonzero (m : Model) (args : Args) (sub_folder : String)
    (hstage : args.zero_stage ≠ 3) (hrank : args.global_rank ≠ 0) :
    save_zero_three_model m args sub_folder =
      ⟨[.makedirs args.output_dir, .makedirs (os_path_join args.output_dir sub_folder)],
       [], none⟩ := by
  unfold save_zero_three_model
  simp [hstage, hrank]

theorem save_z3_replicated_zero (m : Model) (args : Args) (sub_folder : String)
    (hstage : args.zero_stage ≠ 3) (hrank : args.global_rank = 0)
    (hok : ∀ np ∈ m.named_parameters,
      hasLora np.1 = false → exceptOk (get_dtype_size np.2.dtype) = true) :
    save_zero_three_model m args sub_folder =
      ⟨[.makedirs args.output_dir, .makedirs (os_path_join args.output_dir sub_folder),
        .torch_save (os_path_join (os_path_join args.output_dir sub_folder) WEIGHTS_NAME)
          m.state_dict,
        .write_index (os_path_join (os_path_join args.output_dir sub_folder) INDEX_NAME)
          ⟨kept_weight_map m.named_parameters, kept_total m.named_parameters⟩,
        .tokenizer_save (os_path_join args.output_dir sub_folder),
        .shell_copy (args.model_name_or_path ++ "/*telechat*")
          (os_path_join args.output_dir sub_folder),
        .shell_copy (args.model_name_or_path ++ "/generation*")
          (os_path_join args.output_dir sub_folder)],
       [], none⟩ := by
  unfold save_zero_three_model
  rw [accumulate_index_ok _ _ _ hok]
  simp [hstage, hrank]

theorem save_z3_partitioned_nonzero (m : Model) (args : Args) (sub_folder : String)
    (hstage : args.zero_stage = 3) (hrank : args.global_rank ≠ 0) :
    save_zero_three_model m args sub_folder =
      ⟨[.makedirs args.output_dir, .makedirs (os_path_join args.output_dir sub_folder)],
       gather_trace m.named_parameters, none⟩ := by
  unfold save_zero_three_model
  rw [z3_loop_rank_ne args.global_rank hrank m.named_parameters]
  simp [hstage, hrank]

theorem save_z3_partitioned_zero (m : Model) (args : Args) (sub_folder : String)
    (hstage : args.zero_stage = 3) (hrank : args.global_rank = 0)
    (hok : ∀ np ∈ m.named_parameters,
      hasLora np.1 = false → exceptOk (get_dtype_size np.2.dtype) = true) :
    save_zero_three_model m args sub_folder =
      ⟨[.makedirs args.output_dir, .makedirs (os_path_join args.output_dir sub_folder),
        .torch_save (os_path_join (os_path_join args.output_dir sub_folder) WEIGHTS_NAME)
          (kept_params m.named_parameters),
        .write_index (os_path_join (os_path_join args.output_dir sub_folder) INDEX_NAME)
          ⟨kept_weight_map m.named_parameters, kept_total m.named_parameters⟩,
        .tokenizer_save (os_path_join args.output_dir sub_folder),
        .shell_copy (args.model_name_or_path ++ "/*telechat*")
          (os_path_join args.output_dir sub_folder),
        .shell_copy (args.model_name_or_path ++ "/generation*")
          (os_path_join args.output_dir sub_folder)],
       gather_trace m.named_parameters, none⟩ := by
  unfold save_zero_three_model
  rw [hrank, z3_loop_rank0_ok m.named_parameters _ hok]
  simp [hstage]

/-- The relation between the code's dtype-size computation and the amended
byte-width description: they agree wherever either is defined. -/
theorem byte_width_amended_eq (d : Dtype) :
    byte_width_amended d = (get_dtype_size d).toOption := by
  unfold byte_width_amended get_dtype_size
  by_cases hb : d = torch_bool
  · simp [hb, Except.toOption]
  · cases hbs : bit_search d.name <;> simp [hb, hbs, Except.toOption]

/-- Under the amended validity hypothesis, the code total kept_total agrees with
the amended spec total when no name contains "lora". -/
theorem kept_total_eq_spec_amended (m : Model)
    (hl : ∀ np ∈ m.named_parameters, hasLora np.1 = false) :
    kept_total m.named_parameters = spec_total_amended m := by
  unfold kept_total spec_total_amended
  rw [show kept_params m.named_parameters = m.named_parameters from
    List.filter_eq_self.mpr (by intro np hnp; simp [hl np hnp])]
  congr 1
  apply List.map_congr_left
  intro np hnp
  congr 1
  rw [byte_width_amended_eq]
  unfold dtype_size_val
  cases h : get_dtype_size np.2.dtype <;> simp [Except.toOption, h]

/-! String and digit lemmas supporting the get_dtype_size analysis. -/

theorem takeWhile_all_append (p : Char → Bool) (l1 : List Char) (c : Char) (l2 : List Char)
    (h1 : ∀ x ∈ l1, p x = true) (hc : p c = false) :
    (l1 ++ c :: l2).takeWhile p = l1 := by
  induction l1 with
  | nil => simp [List.takeWhile_cons, hc]
  | cons a as ih =>
    have ha : p a = true := h1 a (List.mem_cons_self _ _)
    simp [List.takeWhile_cons, ha,
      ih (fun x hx => h1 x (List.mem_cons_of_mem _ hx))]

theorem trailingDigits_decomp (s : String) (t : List Char) (c : Char) (ds : List Char)
    (hs : s.data = t ++ c :: ds) (hds : ∀ x ∈ ds, x.isDigit = true)
    (hc : c.isDigit = false) :
    trailingDigits s = ds := by
  unfold trailingDigits
  rw [hs]
  have h1 : (t ++ c :: ds).reverse = ds.reverse ++ c :: t.reverse := by
    simp
  rw [h1, takeWhile_all_append Char.isDigit ds.reverse c t.reverse
    (fun x hx => hds x (List.mem_reverse.mp hx)) hc]
  simp

theorem bit_search_decomp (s : String) (t : List Char) (c : Char) (ds : List Char)
    (hs : s.data = t ++ c :: ds) (hds : ∀ x ∈ ds, x.isDigit = true)
    (hc : c.isDigit = false) (hne : ds ≠ []) :
    bit_search s = some (digitsVal ds) := by
  have htd := trailingDigits_decomp s t c ds hs hds hc
  have hlen : s.data.length = t.length + 1 + ds.length := by
    rw [hs]; simp; omega
  have hcond : ¬ ((trailingDigits s).length = 0 ∨ (trailingDigits s).length = s.data.length) := by
    rw [htd]
    push_neg
    constructor
    · intro h0
      exact hne (List.length_eq_zero.mp h0)
    · omega
  unfold bit_search
  rw [if_neg hcond, htd]

theorem bit_search_no_digit (s : String)
    (h : ∀ t x, s.data = t ++ [x] → x.isDigit = false) :
    bit_search s = none := by
  have htd : trailingDigits s = [] := by
    unfold trailingDigits
    rcases List.eq_nil_or_concat s.data with h0 | ⟨t, x, hx⟩
    · simp [h0]
    · rw [List.concat_eq_append] at hx
      have hx' : s.data.reverse = x :: t.reverse := by rw [hx]; simp
      rw [hx', List.takeWhile_cons]
      simp [h t x hx]
  simp [bit_search, htd]

theorem digitsVal_concat (l : List Char) (a : Char) :
    digitsVal (l ++ [a]) = digitsVal l * 10 + (a.toNat - 48) := by
  simp [digitsVal, List.foldl_append]

theorem digitsVal_ofDigits (l : List Char) :
    digitsVal l = Nat.ofDigits 10 ((l.map (fun c => c.toNat - 48)).reverse) := by
  induction l using List.reverseRecOn with
  | nil => simp [digitsVal, Nat.ofDigits]
  | append_singleton as a ih =>
    rw [digitsVal_concat, ih]
    simp [Nat.ofDigits_cons]
    ring

/-! Support lemmas for to_device. -/

theorem dict_set_fresh (d : List (String × Val)) (k : String) (v : Val)
    (h : ∀ kv ∈ d, kv.1 ≠ k) :
    dict_set d k v = d ++ [(k, v)] := by
  have hany : d.any (fun kv => kv.1 == k) = false := by
    rw [List.any_eq_false]
    intro kv hkv
    simpa using h kv hkv
  simp [dict_set, hany]

theorem to_device_fold (device : Device) (batch : List (String × Val)) :
    ∀ out,
      (∀ kv ∈ out, ∀ kv2 ∈ batch, kv.1 ≠ kv2.1) →
      (batch.map Prod.fst).Nodup →
      batch.foldl (to_device_step device) out
        = out ++ batch.map (fun kv => (kv.1, moved_val kv.2 device)) := by
  induction batch with
  | nil => intro out _ _; simp
  | cons hd tl ih =>
    intro out hdisj hnodup
    obtain ⟨k, v⟩ := hd
    have hfresh : ∀ kv ∈ out, kv.1 ≠ k :=
      fun kv hkv => hdisj kv hkv (k, v) (List.mem_cons_self _ _)
    rw [List.map_cons] at hnodup
    have hsplit := List.nodup_cons.mp hnodup
    have hknotl : k ∉ tl.map Prod.fst := hsplit.1
    have hstep : to_device_step device out (k, v) = out ++ [(k, moved_val v device)] := by
      cases hmv : tensor_to v device with
      | ok v2 => simp [to_device_step, hmv, dict_set_fresh out k v2 hfresh, moved_val]
      | error e => simp [to_device_step, hmv, dict_set_fresh out k v hfresh, moved_val]
    rw [List.foldl_cons, hstep,
      ih (out ++ [(k, moved_val v device)]) ?_ ?_]
    · simp
    · intro kv hkv kv2 hkv2
      rcases List.mem_append.mp hkv with hmem | hmem
      · exact hdisj kv hmem kv2 (List.mem_cons_of_mem _ hkv2)
      · simp at hmem
        subst hmem
        intro hcontra
        apply hknotl
        rw [show k = kv2.1 from hcontra]
        exact List.mem_map_of_mem Prod.fst hkv2
    · exact hsplit.2

/-! Projections of a filesystem trace: all serialized weight entries and all
weight-map entries that reach disk. -/

/-- The parameter entries serialized by one operation. -/
def op_saved : FsOp → List (String × Param)
  | .torch_save _ e => e
  | _ => []

/-- The weight-map entries written by one operation. -/
def op_indexed : FsOp → List (String × String)
  | .write_index _ idx => idx.weight_map
  | _ => []

/-- Every parameter entry serialized to a weights file by a trace. -/
def saved_entries (fs : List FsOp) : List (String × Param) :=
  (fs.map op_saved).flatten

/-- Every weight-map entry written to an index file by a trace. -/
def index_entries (fs : List FsOp) : List (String × String) :=
  (fs.map op_indexed).flatten

theorem save_hf_trace_lorafree (m : Model) (args : Args) (sub_folder : String) :
    (∀ kv ∈ saved_entries (save_hf_format m args sub_folder).fs, hasLora kv.1 = false) ∧
    (∀ kv ∈ index_entries (save_hf_format m args sub_folder).fs, hasLora kv.1 = false) := by
  unfold save_hf_format
  cases hacc : accumulate_index m.named_parameters [] 0 with
  | error e =>
    constructor
    · intro kv hkv
      simp [saved_entries, op_saved, index_entries, op_indexed] at hkv
      exact hkv.2
    · intro kv hkv
      simp [saved_entries, op_saved, index_entries, op_indexed] at hkv
  | ok res =>
    obtain ⟨wm, total⟩ := res
    constructor
    · intro kv hkv
      simp [saved_entries, op_saved, index_entries, op_indexed] at hkv
      exact hkv.2
    · intro kv hkv
      simp [saved_entries, op_saved, index_entries, op_indexed] at hkv
      exact accumulate_index_lorafree m.named_parameters [] 0 (wm, total) hacc
        (by intro kv h; cases h) kv hkv

theorem save_z3_index_lorafree (m : Model) (args : Args) (sub_folder : String) :
    ∀ kv ∈ index_entries (save_zero_three_model m args sub_folder).fs,
      hasLora kv.1 = false := by
  unfold save_zero_three_model
  by_cases hstage : args.zero_stage ≠ 3
  · by_cases hrank : args.global_rank = 0
    · cases hacc : accumulate_index m.named_parameters [] 0 with
      | error e =>
        intro kv hkv
        simp [hstage, hrank, index_entries, op_indexed] at hkv
      | ok res =>
        obtain ⟨wm, total⟩ := res
        intro kv hkv
        simp [hstage, hrank, index_entries, op_indexed] at hkv
        exact accumulate_index_lorafree m.named_parameters [] 0 (wm, total) hacc
          (by intro kv h; cases h) kv hkv
    · intro kv hkv
      simp [hstage, hrank, index_entries, op_indexed] at hkv
  · cases hz : z3_loop args.global_rank m.named_parameters ⟨[], [], 0, []⟩ with
    | mk acc err =>
      have hfree := z3_loop_lorafree args.global_rank m.named_parameters ⟨[], [], 0, []⟩
        (by intro kv h; cases h) (by intro kv h; cases h)
      rw [hz] at hfree
      cases err with
      | some e =>
        intro kv hkv
        simp [hstage, index_entries, op_indexed] at hkv
      | none =>
        by_cases hrank : args.global_rank = 0
        · intro kv hkv
          simp [hstage, hrank, index_entries, op_indexed] at hkv
          exact hfree.2 kv hkv
        · intro kv hkv
          simp [hstage, hrank, index_entries, op_indexed] at hkv

theorem save_z3_saved_lorafree (m : Model) (args : Args) (sub_folder : String)
    (hstage : args.zero_stage = 3) :
    ∀ kv ∈ saved_entries (save_zero_three_model m args sub_folder).fs,
      hasLora kv.1 = false := by
  unfold save_zero_three_model
  have hstage' : ¬ args.zero_stage ≠ 3 := by simpa using hstage
  cases hz : z3_loop args.global_rank m.named_parameters ⟨[], [], 0, []⟩ with
  | mk acc err =>
    have hfree := z3_loop_lorafree args.global_rank m.named_parameters ⟨[], [], 0, []⟩
      (by intro kv h; cases h) (by intro kv h; cases h)
    rw [hz] at hfree
    cases err with
    | some e =>
      intro kv hkv
      simp [hstage', saved_entries, op_saved] at hkv
    | none =>
      by_cases hrank : args.global_rank = 0
      · intro kv hkv
        simp [hstage', hrank, saved_entries, op_saved] at hkv
        exact hfree.1 kv hkv
      · intro kv hkv
        simp [hstage', hrank, saved_entries, op_saved] at hkv

/-! Support lemma for optimizer grouping. -/

theorem filter_split_length {α : Type} (l : List α) (q r : α → Bool) :
    (l.filter (fun x => ! q x && r x)).length + (l.filter (fun x => q x && r x)).length
      = (l.filter r).length := by
  induction l with
  | nil => simp
  | cons a as ih =>
    by_cases hq : q a = true <;> by_cases hr : r a = true <;>
      simp [List.filter_cons, hq, hr] <;> omega

/-! Concrete fixtures used by witnesses and counterexamples. -/

/-- A plain 32-bit float parameter. -/
def pFloat : Param := ⟨10, ⟨"torch.float32"⟩, true, none, false⟩

/-- A ZeRO-3 sharded parameter whose ds_status is NOT_AVAILABLE. -/
def pShard : Param := ⟨4, ⟨"torch.float16"⟩, true, some 7, true⟩

/-- An adapter parameter (its name will contain "lora"). -/
def pLora : Param := ⟨2, ⟨"torch.float32"⟩, true, none, false⟩

/-- A parameter whose dtype string form has no trailing digits, as for
torch.float8_e4m3fn; get_dtype_size raises on it. -/
def pBad : Param := ⟨1, ⟨"torch.float8_e4m3fn"⟩, true, none, false⟩

/-- A parameter of the packed sub-byte dtype torch.quint2x4: the trailing
bit-width read from the string form is 4, and 4 is not a multiple of 8. -/
def pQuint : Param := ⟨1, ⟨"torch.quint2x4"⟩, true, none, false⟩

/-- A frozen (non-trainable) parameter. -/
def pFrozen : Param := ⟨3, ⟨"torch.float32"⟩, false, none, false⟩

/-- A one-parameter model with no adapter and no sharding. -/
def mPlain : Model := ⟨[("w", pFloat)], [("w", pFloat)]⟩

/-- A model holding a plain parameter and an adapter parameter. -/
def mRep : Model := ⟨[("w", pFloat), ("q.lora_A", pLora)], [("w", pFloat), ("q.lora_A", pLora)]⟩

/-- A model whose only parameter has the packed sub-byte dtype. -/
def mQuint : Model := ⟨[("w", pQuint)], [("w", pQuint)]⟩

/-- A model holding a fatal-dtype parameter followed by a sharded parameter. -/
def mBad : Model := ⟨[("a", pBad), ("b", pShard)], [("a", pBad), ("b", pShard)]⟩

/-- A model holding a plain parameter and a sharded parameter. -/
def mShard1 : Model := ⟨[("w", pFloat), ("s", pShard)], [("w", pFloat), ("s", pShard)]⟩

/-- A model with a decay, a no-decay and a frozen parameter. -/
def mOpt : Model :=
  ⟨[("attn.weight", pFloat), ("fc.bias", pFloat), ("frozen.weight", pFrozen)],
   [("attn.weight", pFloat), ("fc.bias", pFloat), ("frozen.weight", pFrozen)]⟩

/-- Rank-0 args outside ZeRO-3. -/
def argsHf : Args := ⟨"out", "mpath", 0, 0⟩

/-- Rank-0 replicated-mode args for save_zero_three_model. -/
def argsRep : Args := ⟨"out", "mpath", 0, 2⟩

/-- Rank-1 replicated-mode args. -/
def argsRank1Rep : Args := ⟨"out", "mpath", 1, 2⟩

/-- Rank-0 ZeRO-3 args. -/
def argsZ3r0 : Args := ⟨"out", "mpath", 0, 3⟩

/-- Rank-1 ZeRO-3 args. -/
def argsZ3r1 : Args := ⟨"out", "mpath", 1, 3⟩

/-- Rank-5 ZeRO-3 args. -/
def argsZ3r5 : Args := ⟨"out", "mpath", 5, 3⟩

/-! Claim C1. -/

/-- Claim C1 counterexample: in the replicated branch of save_zero_three_model the
serialized weights file is the full state_dict with no filtering, so on rank 0 with
zero_stage 2 a parameter named q.lora_A, whose name contains "lora", is persisted
to the weights file by that export path. -/
theorem C1_counterexample :
    FsOp.torch_save "out/pytorch_model_00001-of-00001.bin"
        [("w", pFloat), ("q.lora_A", pLora)]
      ∈ (save_zero_three_model mRep argsRep "").fs ∧
    hasLora "q.lora_A" = true := by
  constructor
  · decide
  · decide

/-- Claim C1 (amended): save_hf_format never persists a "lora"-named entry, to the
weights file or to the index; save_zero_three_model never writes a "lora"-named
entry to the index in either branch, and in its partitioned (zero_stage 3) branch
never serializes one to the weights file — but its replicated branch saves the
unfiltered state_dict, so only the three guarantees above hold. -/
theorem C1_lora_excluded_amended :
    ∀ (m : Model) (args : Args) (sub_folder : String),
      (∀ kv ∈ saved_entries (save_hf_format m args sub_folder).fs, hasLora kv.1 = false) ∧
      (∀ kv ∈ index_entries (save_hf_format m args sub_folder).fs, hasLora kv.1 = false) ∧
      (∀ kv ∈ index_entries (save_zero_three_model m args sub_folder).fs,
        hasLora kv.1 = false) ∧
      (args.zero_stage = 3 →
        ∀ kv ∈ saved_entries (save_zero_three_model m args sub_folder).fs,
          hasLora kv.1 = false) := by
  intro m args sub_folder
  refine ⟨(save_hf_trace_lorafree m args sub_folder).1,
    (save_hf_trace_lorafree m args sub_folder).2,
    save_z3_index_lorafree m args sub_folder,
    fun hstage => save_z3_saved_lorafree m args sub_folder hstage⟩

/-- Claim C1 witness: a concrete retained entry in a concrete export trace, with
the amended theorem applied to it. -/
theorem C1_lora_excluded_amended_witness :
    ("w", pFloat) ∈ saved_entries (save_hf_format mPlain argsHf "").fs ∧
    hasLora "w" = false :=
  ⟨by decide, (C1_lora_excluded_amended mPlain argsHf "").1 ("w", pFloat) (by decide)⟩

/-! Claim C2. -/

/-- Claim C2 counterexample: for a model with a single one-element parameter of
dtype torch.quint2x4 (string bit-width 4), the export writes total_size
1 * (4 // 8) = 0, while the claimed formula gives 1 * 4/8 = 1/2. -/
theorem C2_counterexample :
    (written_index (save_hf_format mQuint argsHf "").fs).map IndexDict.total_size
      = some 0 ∧
    spec_total_claim mQuint = 1 / 2 ∧
    ¬ ((0 : ℚ) = 1 / 2) := by
  refine ⟨?_, ?_, by norm_num⟩
  · rw [save_hf_format_ok mQuint argsHf "" (by decide)]
    have hq : dtype_size_val pQuint.dtype = 0 := by
      have hb0 : bit_search "torch.quint2x4" = some 4 := by decide
      have hne0 : (⟨"torch.quint2x4"⟩ : Dtype) ≠ torch_bool := by decide
      have h : get_dtype_size pQuint.dtype = .ok ((4 / 8 : ℕ) : ℚ) := by
        simp [get_dtype_size, pQuint, hne0, hb0]
      simp [dtype_size_val, h]
    have h0 : kept_total mQuint.named_parameters = 0 := by
      rw [show mQuint.named_parameters = [("w", pQuint)] from rfl]
      rw [kept_total_cons_keep "w" pQuint [] (by decide), hq]
      simp [kept_total, kept_params]
    simp [written_index, h0]
  · have hb : bit_search "torch.quint2x4" = some 4 := by decide
    have hne : (⟨"torch.quint2x4"⟩ : Dtype) ≠ torch_bool := by decide
    have hbw : byte_width_claim pQuint.dtype = some ((4 : ℚ) / 8) := by
      simp [byte_width_claim, pQuint, hne, hb]
    have hst : spec_total_claim mQuint
        = (pQuint.numel : ℚ) * ((byte_width_claim pQuint.dtype).getD 0) := by
      simp [spec_total_claim, mQuint]
    rw [hst, hbw]
    norm_num [pQuint]

/-- Claim C2 (amended): for models without "lora"-named parameters and whose every
dtype has a defined byte width, the total_size written to the index by
save_hf_format, and by save_zero_three_model on rank 0 in both branches, equals the
sum over all parameters of element count times byte width, where the byte width is
1/8 for the boolean dtype and the floor of N/8 for a dtype of trailing bit-width N
(the code uses integer floor division, not exact division). -/
theorem C2_total_size_amended :
    ∀ (m : Model) (args : Args) (sub_folder : String),
      (∀ np ∈ m.named_parameters, hasLora np.1 = false) →
      (∀ np ∈ m.named_parameters, (byte_width_amended np.2.dtype).isSome = true) →
      args.global_rank = 0 →
      (written_index (save_hf_format m args sub_folder).fs).map IndexDict.total_size
        = some (spec_total_amended m) ∧
      (written_index (save_zero_three_model m args sub_folder).fs).map IndexDict.total_size
        = some (spec_total_amended m) := by
  intro m args sub_folder hl hsome hrank
  have hok : ∀ np ∈ m.named_parameters,
      hasLora np.1 = false → exceptOk (get_dtype_size np.2.dtype) = true := by
    intro np hnp _
    have h := hsome np hnp
    rw [byte_width_amended_eq] at h
    cases he : get_dtype_size np.2.dtype with
    | ok q => simp [exceptOk]
    | error e => rw [he] at h; simp [Except.toOption] at h
  have htot := kept_total_eq_spec_amended m hl
  constructor
  · rw [save_hf_format_ok m args sub_folder hok]
    simp [written_index, htot]
  · by_cases hstage : args.zero_stage = 3
    · rw [save_z3_partitioned_zero m args sub_folder hstage hrank hok]
      simp [written_index, htot]
    · rw [save_z3_replicated_zero m args sub_folder hstage hrank hok]
      simp [written_index, htot]

/-- Claim C2 witness: the amended theorem applied to a concrete lora-free model
with float32 and sharded float16 parameters (total 10*4 + 4*2 = 48). -/
theorem C2_total_size_amended_witness :
    (∀ np ∈ mShard1.named_parameters, hasLora np.1 = false) ∧
    (written_index (save_hf_format mShard1 argsHf "").fs).map IndexDict.total_size
      = some (spec_total_amended mShard1) ∧
    spec_total_amended mShard1 = 48 :=
  ⟨by decide,
   (C2_total_size_amended mShard1 argsHf "" (by decide) (by decide) (by decide)).1,
   by
     have h32 : byte_width_amended ⟨"torch.float32"⟩ = some 4 := by decide
     have h16 : byte_width_amended ⟨"torch.float16"⟩ = some 2 := by decide
     norm_num [spec_total_amended, mShard1, pFloat, pShard, h32, h16]⟩

/-! Claim C3. -/

/-- Claim C3 counterexample: a replicated-mode export call on global_rank 1 still
performs filesystem writes: save_zero_three_model creates both output directories
on every rank before any rank gating, and save_hf_format has no rank gating at all
and serializes the weights on rank 1. -/
theorem C3_counterexample :
    (save_zero_three_model mPlain argsRank1Rep "").fs
      = [FsOp.makedirs "out", FsOp.makedirs "out/"] ∧
    ¬ ((save_zero_three_model mPlain argsRank1Rep "").fs = []) ∧
    FsOp.torch_save "out/pytorch_model_00001-of-00001.bin" [("w", pFloat)]
      ∈ (save_hf_format mPlain argsRank1Rep "").fs := by
  refine ⟨by decide, by decide, by decide⟩

/-- Claim C3 (amended): on global_rank other than 0, the replicated branch of
save_zero_three_model writes no file — but it still creates the two output
directories, and it raises nothing; and save_hf_format performs exactly the same
writes whatever global_rank is (rank gating is the caller's responsibility). -/
theorem C3_rank_gating_amended :
    (∀ (m : Model) (args : Args) (sub_folder : String),
      args.zero_stage ≠ 3 → args.global_rank ≠ 0 →
      (save_zero_three_model m args sub_folder).fs
        = [FsOp.makedirs args.output_dir,
           FsOp.makedirs (os_path_join args.output_dir sub_folder)] ∧
      (save_zero_three_model m args sub_folder).err = none) ∧
    (∀ (m : Model) (args : Args) (sub_folder : String),
      save_hf_format m args sub_folder
        = save_hf_format m ⟨args.output_dir, args.model_name_or_path, 0, args.zero_stage⟩
            sub_folder) := by
  constructor
  · intro m args sub_folder hstage hrank
    rw [save_z3_replicated_nonzero m args sub_folder hstage hrank]
    exact ⟨rfl, rfl⟩
  · intro m args sub_folder
    obtain ⟨od, mp, gr, zs⟩ := args
    rfl

/-- Claim C3 witness: the amended theorem applied to a concrete rank-1 replicated
export. -/
theorem C3_rank_gating_amended_witness :
    (argsRank1Rep.zero_stage ≠ 3 ∧ argsRank1Rep.global_rank ≠ 0) ∧
    (save_zero_three_model mPlain argsRank1Rep "").fs
      = [FsOp.makedirs argsRank1Rep.output_dir,
         FsOp.makedirs (os_path_join argsRank1Rep.output_dir "")] :=
  ⟨⟨by decide, by decide⟩,
   (C3_rank_gating_amended.1 mPlain argsRank1Rep "" (by decide) (by decide)).1⟩

/-! Claim C4. -/

/-- Claim C4 counterexample: in a ZeRO-3 export of a model whose first retained
parameter has an unrecognized dtype, rank 0 raises in the accumulation step before
reaching a later sharded parameter and so performs no gather, while rank 1 never
evaluates the dtype size and performs that gather: the gather sequences differ
between ranks. -/
theorem C4_counterexample :
    (save_zero_three_model mBad argsZ3r0 "").gathers = [] ∧
    (save_zero_three_model mBad argsZ3r1 "").gathers = [("b", ["b"])] ∧
    ¬ (([] : List (String × List String)) = [("b", ["b"])]) := by
  refine ⟨by decide, by decide, by decide⟩

/-- Claim C4 (amended): provided every retained (non-"lora") parameter has a
recognized dtype, a ZeRO-3 export performs exactly one gather invocation per
parameter carrying a ds_id, in parameter order, and the gather sequence is
independent of global_rank; without that proviso a rank-0 dtype error can abort
the loop early and break rank parity. -/
theorem C4_gather_parity_amended :
    ∀ (m : Model) (args : Args) (sub_folder : String),
      args.zero_stage = 3 →
      (∀ np ∈ m.named_parameters,
        hasLora np.1 = false → exceptOk (get_dtype_size np.2.dtype) = true) →
      (save_zero_three_model m args sub_folder).gathers = gather_trace m.named_parameters ∧
      (gather_trace m.named_parameters).map Prod.fst
        = (m.named_parameters.filter (fun np => np.2.ds_id.isSome)).map Prod.fst := by
  intro m args sub_folder hstage hok
  constructor
  · by_cases hrank : args.global_rank = 0
    · rw [save_z3_partitioned_zero m args sub_folder hstage hrank hok]
    · rw [save_z3_partitioned_nonzero m args sub_folder hstage hrank]
  · simp [gather_trace, List.map_map, Function.comp]

/-- Claim C4 witness: the amended theorem applied on rank 5 to a model with one
plain and one sharded parameter. -/
theorem C4_gather_parity_amended_witness :
    argsZ3r5.zero_stage = 3 ∧
    (save_zero_three_model mShard1 argsZ3r5 "").gathers
      = gather_trace mShard1.named_parameters :=
  ⟨by decide,
   (C4_gather_parity_amended mShard1 argsZ3r5 "" (by decide) (by decide)).1⟩

/-! Claim C5. -/

/-- Claim C5 counterexample: a concrete rank-0 ZeRO-3 export writes no config.json
at all, while save_hf_format on the same model does; the partitioned path does not
write the model configuration. -/
theorem C5_counterexample :
    ((save_zero_three_model mShard1 argsZ3r0 "").fs.all
      (fun op => ! is_config_write op)) = true ∧
    FsOp.config_to_json "out/config.json" ∈ (save_hf_format mShard1 argsZ3r0 "").fs := by
  refine ⟨by decide, by decide⟩

/-- Claim C5 (amended): after the gather loop, rank 0 of a ZeRO-3 export writes
the weights file, then the index JSON, the tokenizer assets, and the two
best-effort directory copies — the same ancillary outputs as the replicated branch
of save_zero_three_model, but not the model configuration: no config.json write
occurs anywhere in the partitioned trace (config.json is written only by
save_hf_format). -/
theorem C5_partitioned_ancillary_amended :
    ∀ (m : Model) (args : Args) (sub_folder : String),
      args.zero_stage = 3 → args.global_rank = 0 →
      (∀ np ∈ m.named_parameters,
        hasLora np.1 = false → exceptOk (get_dtype_size np.2.dtype) = true) →
      (save_zero_three_model m args sub_folder).fs
        = [FsOp.makedirs args.output_dir,
           FsOp.makedirs (os_path_join args.output_dir sub_folder),
           FsOp.torch_save
             (os_path_join (os_path_join args.output_dir sub_folder) WEIGHTS_NAME)
             (kept_params m.named_parameters),
           FsOp.write_index
             (os_path_join (os_path_join args.output_dir sub_folder) INDEX_NAME)
             ⟨kept_weight_map m.named_parameters, kept_total m.named_parameters⟩,
           FsOp.tokenizer_save (os_path_join args.output_dir sub_folder),
           FsOp.shell_copy (args.model_name_or_path ++ "/*telechat*")
             (os_path_join args.output_dir sub_folder),
           FsOp.shell_copy (args.model_name_or_path ++ "/generation*")
             (os_path_join args.output_dir sub_folder)] ∧
      ((save_zero_three_model m args sub_folder).fs.all
        (fun op => ! is_config_write op)) = true := by
  intro m args sub_folder hstage hrank hok
  rw [save_z3_partitioned_zero m args sub_folder hstage hrank hok]
  exact ⟨rfl, by simp [is_config_write]⟩

/-- Claim C5 witness: the amended theorem applied to a concrete rank-0 ZeRO-3
export. -/
theorem C5_partitioned_ancillary_amended_witness :
    (argsZ3r0.zero_stage = 3 ∧ argsZ3r0.global_rank = 0) ∧
    ((save_zero_three_model mShard1 argsZ3r0 "").fs.all
      (fun op => ! is_config_write op)) = true :=
  ⟨⟨by decide, by decide⟩,
   (C5_partitioned_ancillary_amended mShard1 argsZ3r0 "" (by decide) (by decide)
     (by decide)).2⟩

/-! Claim C6. -/

/-- Claim C6 counterexample: for the dtype whose string form is torch.quint4x2
(trailing bit-width 2), get_dtype_size returns 2 // 8 = 0, not the claimed
N/8 = 1/4. -/
theorem C6_counterexample :
    get_dtype_size ⟨"torch.quint4x2"⟩ = .ok ((2 / 8 : ℕ) : ℚ) ∧
    ((2 / 8 : ℕ) : ℚ) = 0 ∧
    ¬ (((2 : ℚ) / 8) = 0) := by
  refine ⟨?_, by norm_num, by norm_num⟩
  have hb : bit_search "torch.quint4x2" = some 2 := by decide
  have hne : (⟨"torch.quint4x2"⟩ : Dtype) ≠ torch_bool := by decide
  simp [get_dtype_size, hne, hb]

/-- Claim C6 (amended): get_dtype_size returns 1/8 for the boolean dtype; for a
dtype whose string form decomposes as a prefix, a non-digit character and a
nonempty digit suffix of decimal value N, it returns the integer floor of N/8
(not N/8 exactly); digit suffixes are read as usual decimal numerals; and for a
non-boolean dtype whose string form does not end in a digit it raises a
ValueError. -/
theorem C6_get_dtype_size_amended :
    (get_dtype_size torch_bool = .ok (1 / 8)) ∧
    (∀ (d : Dtype) (t : List Char) (c : Char) (ds : List Char),
      d ≠ torch_bool → d.name.data = t ++ c :: ds → ds ≠ [] →
      (∀ x ∈ ds, x.isDigit = true) → c.isDigit = false →
      get_dtype_size d = .ok ((digitsVal ds / 8 : ℕ) : ℚ)) ∧
    (∀ l : List Char,
      digitsVal l = Nat.ofDigits 10 ((l.map (fun ch => ch.toNat - 48)).reverse)) ∧
    (∀ d : Dtype, d ≠ torch_bool →
      (∀ t x, d.name.data = t ++ [x] → x.isDigit = false) →
      get_dtype_size d = .error "dtype is not a valid dtype") := by
  refine ⟨by simp [get_dtype_size], ?_, digitsVal_ofDigits, ?_⟩
  · intro d t c ds hne hs hne2 hds hc
    rw [get_dtype_size, if_neg hne, bit_search_decomp d.name t c ds hs hds hc hne2]
  · intro d hne hnd
    rw [get_dtype_size, if_neg hne, bit_search_no_digit d.name hnd]

/-- Claim C6 witness: the amended theorem applied to torch.float32 (giving 4) and
to an all-letters dtype string (raising). -/
theorem C6_get_dtype_size_amended_witness :
    ("torch.float32".data
        = "torch.floa".data ++ 't' :: ['3', '2'] ∧ ('t'.isDigit = false)) ∧
    get_dtype_size ⟨"torch.float32"⟩ = .ok ((digitsVal ['3', '2'] / 8 : ℕ) : ℚ) ∧
    get_dtype_size ⟨"customtype"⟩ = .error "dtype is not a valid dtype" :=
  ⟨⟨by decide, by decide⟩,
   (C6_get_dtype_size_amended.2.1 ⟨"torch.float32"⟩ "torch.floa".data 't' ['3', '2']
     (by decide) (by decide) (by decide) (by decide) (by decide)),
   (C6_get_dtype_size_amended.2.2.2 ⟨"customtype"⟩ (by decide) (by
     intro t x h
     have hlast : ("customtype".data).getLast? = some x := by
       rw [h]
       exact List.getLast?_concat t
     have hx : x = 'e' := by
       have h2 : some x = some 'e' := by rw [← hlast]; decide
       exact Option.some.inj h2
     rw [hx]
     decide))⟩

/-! Claim C7. -/

/-- Claim C7: to_device is total (the bare except catches every failed move), and
on a dict batch (keys are unique) it returns a new mapping with exactly the same
keys in the same order, where each movable value is replaced by its moved copy and
each non-movable value is carried over unchanged, independently per key. -/
theorem C7_to_device (batch : List (String × Val)) (device : Device)
    (hnodup : (batch.map Prod.fst).Nodup) :
    to_device batch device
      = batch.map (fun kv => (kv.1, moved_val kv.2 device)) ∧
    (to_device batch device).map Prod.fst = batch.map Prod.fst ∧
    (∀ kv ∈ batch, ∀ v2, tensor_to kv.2 device = .ok v2 →
      (kv.1, v2) ∈ to_device batch device) ∧
    (∀ kv ∈ batch, ∀ e, tensor_to kv.2 device = .error e →
      kv ∈ to_device batch device) := by
  have hmain : to_device batch device
      = batch.map (fun kv => (kv.1, moved_val kv.2 device)) := by
    unfold to_device
    rw [to_device_fold device batch [] (by intro kv h; cases h) hnodup]
    simp
  refine ⟨hmain, ?_, ?_, ?_⟩
  · rw [hmain, List.map_map]
    rfl
  · intro kv hkv v2 hv2
    rw [hmain]
    have : (kv.1, moved_val kv.2 device) ∈ batch.map
        (fun kv => (kv.1, moved_val kv.2 device)) :=
      List.mem_map_of_mem _ hkv
    rwa [show moved_val kv.2 device = v2 from by simp [moved_val, hv2]] at this
  · intro kv hkv e he
    rw [hmain]
    have : (kv.1, moved_val kv.2 device) ∈ batch.map
        (fun kv => (kv.1, moved_val kv.2 device)) :=
      List.mem_map_of_mem _ hkv
    rwa [show moved_val kv.2 device = kv.2 from by simp [moved_val, he],
      Prod.mk.eta] at this

/-- Claim C7 witness: a batch with one movable tensor and one non-movable object;
both keys survive and only the tensor moves. -/
theorem C7_to_device_witness :
    (([("input_ids", Val.tensor [1, 2] Device.cpu),
       ("meta", Val.pyobj "x")].map Prod.fst).Nodup) ∧
    to_device [("input_ids", Val.tensor [1, 2] Device.cpu), ("meta", Val.pyobj "x")]
        (Device.cuda 0)
      = [("input_ids", Val.tensor [1, 2] (Device.cuda 0)), ("meta", Val.pyobj "x")] :=
  ⟨by decide, by
    have h := (C7_to_device
      [("input_ids", Val.tensor [1, 2] Device.cpu), ("meta", Val.pyobj "x")]
      (Device.cuda 0) (by decide)).1
    rw [h]
    decide⟩

/-! Claim C8. -/

/-- Claim C8: set_random_seed with no seed passed is a no-op on every
pseudo-random generator state. -/
theorem C8_set_random_seed_none (st : PRNGState) : set_random_seed none st = st := rfl

/-! Claim C9. -/

/-- Claim C9: get_optimizer_grouped_parameters returns exactly two groups, decay
group first holding the given weight decay and the trainable parameters whose name
contains no no-decay substring, second group with decay 0 holding the trainable
parameters whose name contains one; non-trainable parameters appear in neither
group, and every trainable parameter lands in exactly one group. -/
theorem C9_optimizer_grouping (m : Model) (wd : ℚ) (nd_list : List String) :
    (get_optimizer_grouped_parameters m wd nd_list).length = 2 ∧
    (get_optimizer_grouped_parameters m wd nd_list).map ParamGroup.weight_decay
      = [wd, 0] ∧
    (∀ n p, (n, p) ∈ m.named_parameters → p.requires_grad = true →
      (name_no_decay nd_list n = false →
        p ∈ ((get_optimizer_grouped_parameters m wd nd_list).getD 0 ⟨[], 0⟩).params) ∧
      (name_no_decay nd_list n = true →
        p ∈ ((get_optimizer_grouped_parameters m wd nd_list).getD 1 ⟨[], 0⟩).params)) ∧
    (∀ g ∈ get_optimizer_grouped_parameters m wd nd_list, ∀ p ∈ g.params,
      p.requires_grad = true) ∧
    (((get_optimizer_grouped_parameters m wd nd_list).getD 0 ⟨[], 0⟩).params.length +
      ((get_optimizer_grouped_parameters m wd nd_list).getD 1 ⟨[], 0⟩).params.length
      = (m.named_parameters.filter (fun np => np.2.requires_grad)).length) := by
  refine ⟨rfl, rfl, ?_, ?_, ?_⟩
  · intro n p hmem hrg
    constructor
    · intro hnd
      exact List.mem_map_of_mem Prod.snd
        (List.mem_filter.mpr ⟨hmem, by simp [hnd, hrg]⟩)
    · intro hnd
      exact List.mem_map_of_mem Prod.snd
        (List.mem_filter.mpr ⟨hmem, by simp [hnd, hrg]⟩)
  · intro g hg p hp
    simp [get_optimizer_grouped_parameters] at hg
    rcases hg with hg | hg
    all_goals
      subst hg
      obtain ⟨np, hnp, hsnd⟩ := List.mem_map.mp hp
      have h2 := (List.mem_filter.mp hnp).2
      rw [Bool.and_eq_true] at h2
      rw [← hsnd]
      exact h2.2
  · have h := filter_split_length m.named_parameters
      (fun np => name_no_decay nd_list np.1) (fun np => np.2.requires_grad)
    simpa [get_optimizer_grouped_parameters] using h

/-- Claim C9 witness: a concrete model with a decay parameter, a bias parameter
and a frozen parameter, under the default no-decay list. -/
theorem C9_optimizer_grouping_witness :
    (("fc.bias", pFloat) ∈ mOpt.named_parameters ∧ pFloat.requires_grad = true ∧
      name_no_decay no_decay_default "fc.bias" = true) ∧
    pFloat ∈ ((get_optimizer_grouped_parameters mOpt (1 / 100) no_decay_default).getD 1
      ⟨[], 0⟩).params :=
  ⟨⟨by decide, by decide, by decide⟩,
   ((C9_optimizer_grouping mOpt (1 / 100) no_decay_default).2.2.1 "fc.bias" pFloat
     (by decide) (by decide)).2 (by decide)⟩

/-! Claim C10. -/

/-- Claim C10: get_all_reduce_mean mutates its input tensor in place — after the
call the caller's tensor cell holds the across-worker sum — while the value it
returns is a freshly allocated tensor holding the sum divided by the world size. -/
theorem C10_all_reduce_mean (heap : List ℚ) (t : ℕ) (world_sum : ℚ)
    (world_size : ℕ) (ht : t < heap.length) :
    ((get_all_reduce_mean heap t world_sum world_size).1.getD t 0 = world_sum) ∧
    ((get_all_reduce_mean heap t world_sum world_size).2 = heap.length) ∧
    ((get_all_reduce_mean heap t world_sum world_size).2 ≠ t) ∧
    ((get_all_reduce_mean heap t world_sum world_size).1.getD
        (get_all_reduce_mean heap t world_sum world_size).2 0
      = world_sum / (world_size : ℚ)) ∧
    ((get_all_reduce_mean heap t world_sum world_size).1.length = heap.length + 1) := by
  have hset : (heap.set t world_sum).getD t 0 = world_sum := by
    rw [List.getD_eq_getElem?_getD, List.getElem?_set_self]
    · simp
    · simpa using ht
  have hlen : (heap.set t world_sum).length = heap.length := by simp
  refine ⟨?_, ?_, ?_, ?_, ?_⟩
  · unfold get_all_reduce_mean tensor_div_new all_reduce_sum
    rw [List.getD_eq_getElem?_getD, List.getElem?_append_left (by simpa using ht),
      ← List.getD_eq_getElem?_getD _ _ 0, hset]
  · unfold get_all_reduce_mean tensor_div_new all_reduce_sum
    exact hlen
  · unfold get_all_reduce_mean tensor_div_new all_reduce_sum
    simp
    omega
  · unfold get_all_reduce_mean tensor_div_new all_reduce_sum
    rw [hlen, List.getD_eq_getElem?_getD, List.getElem?_append_right (by simp)]
    simp only [List.length_set, Nat.sub_self, List.getElem?_cons_zero, Option.getD_some]
    rw [hset]
  · unfold get_all_reduce_mean tensor_div_new all_reduce_sum
    simp

/-- Claim C10 witness: a one-cell heap holding 3; after the call with sum 10 and
world size 2, the original cell holds 10 and the returned fresh cell holds 5. -/
theorem C10_all_reduce_mean_witness :
    (0 : ℕ) < [(3 : ℚ)].length ∧
    (get_all_reduce_mean [(3 : ℚ)] 0 10 2).1.getD 0 0 = 10 ∧
    (get_all_reduce_mean [(3 : ℚ)] 0 10 2).2 = 1 :=
  ⟨by decide,
   (C10_all_reduce_mean [(3 : ℚ)] 0 10 2 (by decide)).1,
   ((C10_all_reduce_mean [(3 : ℚ)] 0 10 2 (by decide)).2.1).trans (by decide)⟩

end Telechat
